import Mathlib

/-!
Verification development for the wallet-monitoring dashboard (resumeak).

Shallow embedding of the core logic of the repository:
  * `supabase/functions/analyze-wallet/index.ts` — risk scoring, explorer
    fetch-with-retry, network validation, XRP routing;
  * `supabase/functions/real-time-monitor/index.ts` — whale classification
    and ingestion deduplication;
  * `supabase/functions/wallet-history/index.ts` — network validation;
  * `src/lib/bitquery-balance.ts` and `src/hooks/useRealTimeBalance.ts` —
    balance fetching and its degradation behaviour;
  * `src/components/StablecoinTransfersTab.tsx` — the multi-network
    stablecoin transfer aggregator;
  * `src/lib/networks.ts` — the network registry;
  * the `fetch-stablecoin-transfers` edge function — per-network stablecoin
    contract lists.

Modelling conventions: JavaScript numbers carrying monetary amounts are
modelled as `ℚ` (exact rationals; the ratios and thresholds compared here are
far coarser than double precision, so the comparisons coincide), epoch
millisecond values as `Int`, and fallible I/O as `Except` values supplied as
explicit arguments (an oracle describing what each network call returned).
-/

/-! ## Risk scoring engine (`analyze-wallet/index.ts`, lines 139-177) -/

/-- A raw transaction as returned by the explorer `txlist` endpoint; only the
fields the risk computation reads are kept.  `timeStamp` is the epoch-second
value already parsed from the response string, `isError` the literal string
field of the response (the code compares it with `'1'`). -/
structure EtherscanTx where
  timeStamp : Int
  isError : String
deriving Repr, DecidableEq

inductive RiskLevel where
  | LOW
  | MEDIUM
  | HIGH
deriving Repr, DecidableEq

structure RiskAnalysis where
  totalTransactions : Nat
  failedTransactions : Nat
  failedTransactionRatio : ℚ
  walletAgeDays : Int
  riskScore : Nat
  riskLevel : RiskLevel
deriving Repr, DecidableEq

/-- Models `Math.floor((now - firstTxDate.getTime()) / (1000*60*60*24))`:
floor division of a millisecond difference by one day. -/
def ageDaysBetween (now firstTxMs : Int) : Int :=
  (now - firstTxMs).fdiv 86400000

/-- The risk computation of the `serve` handler (lines 149-177), run after the
transaction list is fetched.  `now` is `Date.now()` in epoch milliseconds.
The score is accumulated sequentially exactly as in the source:
start at 1, add the age factor, then the volume factor, then the failure
factor, then cap at 10; the level thresholds are `<=3` LOW, `<=6` MEDIUM.
`riskCore` is the score/level accumulation of lines 158-177 (the failed
count itself does not enter the score, only the ratio and the total);
`riskAnalysisOf` wraps it with the metric extraction of lines 149-156. -/
def riskCore (walletAgeDays : Int) (totalTxs : Nat) (failedRatio : ℚ) : Nat × RiskLevel :=
  let s1 : Nat := 1
  let s2 : Nat :=
    if walletAgeDays < 30 then s1 + 3
    else if walletAgeDays < 90 then s1 + 2
    else if walletAgeDays < 365 then s1 + 1
    else s1
  let s3 : Nat :=
    if totalTxs < 10 then s2 + 2
    else if totalTxs < 50 then s2 + 1
    else s2
  let s4 : Nat :=
    if failedRatio > 0.1 then s3 + 2
    else if failedRatio > 0.05 then s3 + 1
    else s3
  let riskScore := min s4 10
  let riskLevel :=
    if riskScore ≤ 3 then RiskLevel.LOW
    else if riskScore ≤ 6 then RiskLevel.MEDIUM
    else RiskLevel.HIGH
  (riskScore, riskLevel)

def riskAnalysisOf (now : Int) (transactions : List EtherscanTx) : RiskAnalysis :=
  let totalTxs := transactions.length
  let failedTxs := (transactions.filter (fun tx => tx.isError = "1")).length
  let failedRatio : ℚ := if totalTxs > 0 then (failedTxs : ℚ) / (totalTxs : ℚ) else 0
  let oldestTx := transactions.getLast?
  let firstTxDate : Option Int := oldestTx.map (fun tx => tx.timeStamp * 1000)
  let walletAgeDays : Int :=
    match firstTxDate with
    | some d => ageDaysBetween now d
    | none => 0
  { totalTransactions := totalTxs
    failedTransactions := failedTxs
    failedTransactionRatio := failedRatio
    walletAgeDays := walletAgeDays
    riskScore := (riskCore walletAgeDays totalTxs failedRatio).1
    riskLevel := (riskCore walletAgeDays totalTxs failedRatio).2 }

/-- The spec formula's age factor: +3 if age<30d, else +2 if <90d, else +1 if
<365d, else +0. -/
def ageFactor (walletAgeDays : Int) : Nat :=
  if walletAgeDays < 30 then 3
  else if walletAgeDays < 90 then 2
  else if walletAgeDays < 365 then 1
  else 0

/-- The spec formula's volume factor: +2 if totalTx<10, else +1 if <50. -/
def volumeFactor (totalTxs : Nat) : Nat :=
  if totalTxs < 10 then 2
  else if totalTxs < 50 then 1
  else 0

/-- The spec formula's failure factor: +2 if ratio>0.10, else +1 if >0.05. -/
def failureFactor (failedRatio : ℚ) : Nat :=
  if failedRatio > 0.1 then 2
  else if failedRatio > 0.05 then 1
  else 0

/-! ## Explorer fetch with retry (`analyze-wallet/index.ts`, lines 85-122) -/

/-- Holds of `as bs` when the char list `as` starts the char list `bs`. -/
def leadsWith : List Char → List Char → Bool
  | [], _ => true
  | _ :: _, [] => false
  | a :: as, b :: bs => a = b && leadsWith as bs

/-- Holds of `pat s` when the char list `pat` occurs contiguously in `s`;
models JavaScript's `String.prototype.includes`. -/
def occursIn (pat : List Char) : List Char → Bool
  | [] => leadsWith pat []
  | s@(_ :: rest) => leadsWith pat s || occursIn pat rest

/-- Models `data.message?.includes('rate limit')` (line 108). -/
def hasRateLimitSignal (message : String) : Bool :=
  occursIn "rate limit".toList message.toList

/-- What one attempt of `fetchWithRetry` observes: either an HTTP-level
failure (`!response.ok`, or a thrown network/JSON error — both land in the
same `catch`), or a parsed explorer envelope `{status, message, result}`. -/
inductive AttemptOutcome where
  | httpFail
  | apiResp (status message : String) (result : List EtherscanTx)
deriving Repr, DecidableEq

/-- The normalized value `fetchWithRetry` resolves with: the envelope's
status and result (after the empty-success normalization of lines 101-104). -/
structure NormalizedResp where
  status : String
  result : List EtherscanTx
deriving Repr, DecidableEq

/-- One run of `fetchWithRetry`'s loop body, from attempt `i` with `fuel`
iterations left, accumulating the milliseconds slept between attempts (in
reverse).  Mirrors lines 86-121:
  * `!response.ok`: throw on the last attempt, else sleep `1000*(i+1)` and
    continue;
  * `status='0' ∧ message='No transactions found'`: return `{status:'1',
    result:[]}` (empty success, lines 101-104);
  * `status ≠ '1'`: if the message carries a rate-limit signal and this is
    not the last attempt, sleep `2000*(i+1)` and continue; otherwise the
    thrown error is caught by the surrounding `catch`, which rethrows on the
    last attempt and otherwise sleeps `1000*(i+1)` and continues;
  * otherwise return the envelope unchanged. -/
def fetchWithRetryGo (oracle : Nat → AttemptOutcome) (maxRetries : Nat) :
    Nat → Nat → List Nat → Except String NormalizedResp × List Nat
  | 0, _, acc => (Except.error "loop exhausted", acc.reverse)
  | fuel + 1, i, acc =>
    match oracle i with
    | AttemptOutcome.httpFail =>
      if i = maxRetries - 1 then (Except.error "HTTP error", acc.reverse)
      else fetchWithRetryGo oracle maxRetries fuel (i + 1) (1000 * (i + 1) :: acc)
    | AttemptOutcome.apiResp status message result =>
      if status = "0" ∧ message = "No transactions found" then
        (Except.ok ⟨"1", []⟩, acc.reverse)
      else if status ≠ "1" then
        if hasRateLimitSignal message ∧ i < maxRetries - 1 then
          fetchWithRetryGo oracle maxRetries fuel (i + 1) (2000 * (i + 1) :: acc)
        else if i = maxRetries - 1 then (Except.error "API error", acc.reverse)
        else fetchWithRetryGo oracle maxRetries fuel (i + 1) (1000 * (i + 1) :: acc)
      else (Except.ok ⟨status, result⟩, acc.reverse)

/-- Models `fetchWithRetry(url, maxRetries = 3)`: the oracle gives the outcome of
each attempt; the result is the resolved/rejected value together with the
ordered list of back-off delays actually slept. -/
def fetchWithRetry (oracle : Nat → AttemptOutcome) (maxRetries : Nat) :
    Except String NormalizedResp × List Nat :=
  fetchWithRetryGo oracle maxRetries maxRetries 0 []

/-- An attempt that makes `fetchWithRetry` move on (throw or delay+continue)
rather than return. -/
def attemptFails (o : AttemptOutcome) : Bool :=
  match o with
  | AttemptOutcome.httpFail => true
  | AttemptOutcome.apiResp status message _ =>
    if status = "0" ∧ message = "No transactions found" then false
    else decide (status ≠ "1")

/-- An attempt whose failure takes the rate-limit branch of line 108. -/
def attemptRateLimited (o : AttemptOutcome) : Bool :=
  match o with
  | AttemptOutcome.httpFail => false
  | AttemptOutcome.apiResp status message _ =>
    if status = "0" ∧ message = "No transactions found" then false
    else decide (status ≠ "1") && hasRateLimitSignal message

/-- The delay slept after failed attempt `i` (0-based) when a further attempt
remains: `2000*(i+1)` on a rate-limit signal, `1000*(i+1)` otherwise. -/
def attemptDelay (i : Nat) (o : AttemptOutcome) : Nat :=
  if attemptRateLimited o then 2000 * (i + 1) else 1000 * (i + 1)

/-- The value a non-failing attempt resolves with. -/
def attemptValue (o : AttemptOutcome) : NormalizedResp :=
  match o with
  | AttemptOutcome.httpFail => ⟨"1", []⟩
  | AttemptOutcome.apiResp status message result =>
    if status = "0" ∧ message = "No transactions found" then ⟨"1", []⟩
    else ⟨status, result⟩

/-- A three-attempt oracle from three explicit outcomes. -/
def oracle3 (o0 o1 o2 : AttemptOutcome) : Nat → AttemptOutcome :=
  fun i => if i = 0 then o0 else if i = 1 then o1 else o2

/-- An explorer envelope that reports a rate limit on every attempt. -/
def rateLimitedOracle : Nat → AttemptOutcome :=
  fun _ => AttemptOutcome.apiResp "0" "Max rate limit reached" []

/-- The oracle of a wallet with no activity: every attempt returns
`{status:'0', message:'No transactions found'}`. -/
def noTransactionsOracle : Nat → AttemptOutcome :=
  fun _ => AttemptOutcome.apiResp "0" "No transactions found" []

/-! ## Whale classification and ingestion dedup
(`real-time-monitor/index.ts`, lines 168-215) -/

/-- Models `const usdValue = amount; // Assuming 1:1 for stablecoins` (line 170). -/
def usdValueOf (amount : ℚ) : ℚ := amount

/-- Models `const isWhale = usdValue >= 100000;` (line 171). -/
def isWhaleOf (amount : ℚ) : Bool :=
  decide (usdValueOf amount ≥ 100000)

/-- A raw Bitquery transfer as read by the poll loop.  `amount` is the value
`parseFloat(transfer.Transfer.Amount)` evaluates to; `blockTime` the
`Block.Time` string (its ISO rendering is a function of this string, so equal
payloads persist equal timestamps). -/
structure RawTransfer where
  hash : String
  sender : String
  receiver : String
  amount : ℚ
  blockTime : String
  blockNumber : Int
  currencySymbol : String
deriving Repr, DecidableEq

/-- A persisted `real_time_transfers` row (columns the logic touches). -/
structure TransferRow where
  hash : String
  timestamp : String
  block_number : Int
  from_address : String
  to_address : String
  amount : ℚ
  currency : String
  usd_value : ℚ
  is_whale : Bool
  network : String
deriving Repr, DecidableEq

/-- The row the poller builds for a raw transfer (lines 191-203). -/
def rowOfTransfer (t : RawTransfer) : TransferRow :=
  { hash := t.hash
    timestamp := t.blockTime
    block_number := t.blockNumber
    from_address := t.sender
    to_address := t.receiver
    amount := t.amount
    currency := t.currencySymbol
    usd_value := usdValueOf t.amount
    is_whale := isWhaleOf t.amount
    network := "ethereum" }

/-- The pre-insert duplicate check of lines 177-184: an existing row with the
same `hash`, `from_address`, `to_address` and `amount`. -/
def matchesDedupKey (t : RawTransfer) (r : TransferRow) : Bool :=
  decide (r.hash = t.hash) && decide (r.from_address = t.sender) &&
    decide (r.to_address = t.receiver) && decide (r.amount = t.amount)

/-- The storage-layer uniqueness guard `unique_realtime_transfer` on
`(hash, from_address, to_address, timestamp)` (migration part_006). -/
def sameConstraintKey (a b : TransferRow) : Bool :=
  decide (a.hash = b.hash) && decide (a.from_address = b.from_address) &&
    decide (a.to_address = b.to_address) && decide (a.timestamp = b.timestamp)

/-- Constraint-guarded insert: the database rejects a row whose
`(hash, from_address, to_address, timestamp)` already exists; the poller
logs the error and continues, so the state is unchanged. -/
def dbInsert (db : List TransferRow) (row : TransferRow) : List TransferRow :=
  if db.any (fun r => sameConstraintKey r row) then db else db ++ [row]

/-- Processing of one raw transfer by the poll loop body (lines 168-215):
check for an existing row matching the dedup key and skip if found, else
insert under the uniqueness constraint. -/
def ingestTransfer (db : List TransferRow) (t : RawTransfer) : List TransferRow :=
  if db.any (fun r => matchesDedupKey t r) then db
  else dbInsert db (rowOfTransfer t)

/-- One poller tick: process the fetched transfers in order. -/
def ingestTick (db : List TransferRow) (transfers : List RawTransfer) : List TransferRow :=
  transfers.foldl ingestTransfer db

/-- Rows of the store matching a payload's dedup key. -/
def countMatching (db : List TransferRow) (t : RawTransfer) : Nat :=
  (db.filter (fun r => matchesDedupKey t r)).length

/-- No persisted row carries this payload's `(hash, sender, receiver)`
triple — the transfer has not been ingested before in any form. -/
def freshFor (db : List TransferRow) (t : RawTransfer) : Bool :=
  db.all fun r =>
    !(decide (r.hash = t.hash) && decide (r.from_address = t.sender) &&
      decide (r.to_address = t.receiver))

/-! ## Network registry (`src/lib/networks.ts`) -/

structure NetworkConfig where
  id : String
  name : String
  nativeSymbol : String
  nativeDecimals : Nat
  apiEndpoint : String
  explorerUrl : String
  isEVM : Bool
  bitqueryId : String
deriving Repr, DecidableEq

/-- The frontend `SUPPORTED_NETWORKS` registry (`src/lib/networks.ts`). -/
def frontendNetworks : List (String × NetworkConfig) :=
  [("ethereum", ⟨"ethereum", "Ethereum", "ETH", 18,
      "https://api.etherscan.io/api", "https://etherscan.io", true, "eth"⟩),
   ("polygon", ⟨"polygon", "Polygon", "MATIC", 18,
      "https://api.polygonscan.com/api", "https://polygonscan.com", true, "polygon"⟩),
   ("avalanche", ⟨"avalanche", "Avalanche", "AVAX", 18,
      "https://api.snowtrace.io/api", "https://snowtrace.io", true, "avalanche"⟩),
   ("arbitrum", ⟨"arbitrum", "Arbitrum", "ETH", 18,
      "https://api.arbiscan.io/api", "https://arbiscan.io", true, "arbitrum"⟩),
   ("xrp", ⟨"xrp", "XRP Ledger", "XRP", 6,
      "https://api.xrpscan.com/api/v1", "https://xrpscan.com", false, "xrp"⟩)]

/-- Models `getNetworkConfig = (networkId) => SUPPORTED_NETWORKS[networkId] || null`
(`src/lib/networks.ts`, lines 222-224): absence is `none`, never a throw. -/
def getNetworkConfig (networkId : String) : Option NetworkConfig :=
  (frontendNetworks.find? (fun p => p.1 = networkId)).map (fun p => p.2)

/-! ## Gateway network validation and XRP routing -/

/-- The networks of `analyze-wallet/index.ts`'s own `SUPPORTED_NETWORKS`
(lines 10-31): note `xrp` is absent. -/
def analyzeWalletNetworks : List String :=
  ["ethereum", "polygon", "avalanche", "arbitrum"]

/-- Where a request to the `analyze-wallet` handler is routed.  Thrown
errors land in the handler's `catch`, which answers with HTTP 500. -/
inductive AnalyzeRoute where
  | errorResponse (status : Nat) (message : String)
  | xrpPath
  | evmPath (network : String)
deriving Repr, DecidableEq

/-- The request-validation and routing prefix of the `analyze-wallet` `serve`
handler (lines 40-54): missing address throws; a network absent from the
function's own map throws `Unsupported network` (answered 500 by the
`catch`); only then is `network === 'xrp'` tested. -/
def analyzeWalletRoute (walletAddress : String) (network : String) : AnalyzeRoute :=
  if walletAddress = "" then
    AnalyzeRoute.errorResponse 500 "Wallet address is required"
  else if network ∉ analyzeWalletNetworks then
    AnalyzeRoute.errorResponse 500 ("Unsupported network: " ++ network)
  else if network = "xrp" then AnalyzeRoute.xrpPath
  else AnalyzeRoute.evmPath network

/-- Routing outcome of the `wallet-history` handler. -/
inductive HistoryRoute where
  | badRequest (status : Nat) (message : String)
  | xrpPath
  | evmPath (network : String)
deriving Repr, DecidableEq

/-- The networks of `wallet-history/index.ts`'s `SUPPORTED_NETWORKS`
(lines 8-29): `xrp` is absent there too. -/
def walletHistoryNetworks : List String :=
  ["ethereum", "polygon", "avalanche", "arbitrum"]

/-- The request-validation prefix of the `wallet-history` handler
(lines 39-58): missing fields and unsupported networks answer HTTP 400
directly; only then is `network === 'xrp'` tested. -/
def walletHistoryRoute (walletAddress startDate endDate network : String) : HistoryRoute :=
  if walletAddress = "" ∨ startDate = "" ∨ endDate = "" then
    HistoryRoute.badRequest 400 "walletAddress, startDate, and endDate are required"
  else if network ∉ walletHistoryNetworks then
    HistoryRoute.badRequest 400 ("Unsupported network: " ++ network)
  else if network = "xrp" then HistoryRoute.xrpPath
  else HistoryRoute.evmPath network

/-- The per-network stablecoin contract lists of the
`fetch-stablecoin-transfers` edge function (part_003, lines 10-29). -/
def NETWORK_STABLECOINS : List (String × List String) :=
  [("eth",
    ["0xa0b86991c6218b36c1d19d4a2e9eb0ce3606eb48",
     "0xdac17f958d2ee523a2206206994597c13d831ec7",
     "0x6c3ea9036406852006290770bedfcaba0e23a0e8",
     "0x4c9edd5852cd905f086c759e8383e09bff1e68b3"]),
   ("polygon",
    ["0x2791bca1f2de4661ed88a30c99a7a9449aa84174",
     "0xc2132d05d31c914a87c6611c10748aeb04b58e8f"]),
   ("avalanche",
    ["0xb97ef9ef8734c71904d8002f8b6bc66dd9c48a6e",
     "0x9702230a8ea53601f5cd2dc00fdbc13d4df4a8c7"]),
   ("arbitrum",
    ["0xaf88d065e77c8cc2239327c5edb3a432268e5831",
     "0xfd086bc7cd5c481dcc9c85ebe478a1c0b69fcbb9"])]

/-- Models `NETWORK_STABLECOINS[network] || NETWORK_STABLECOINS.eth` (part_003,
line 52): unknown networks fall back to the `eth` contract list. -/
def stablecoinContractsFor (network : String) : List String :=
  match NETWORK_STABLECOINS.find? (fun p => p.1 = network) with
  | some p => p.2
  | none =>
    match NETWORK_STABLECOINS.find? (fun p => p.1 = "eth") with
    | some p => p.2
    | none => []

/-! ## XRP drop display (`analyze-wallet/index.ts`, lines 274-284) -/

/-- Left-pad a digit string with zeros to six places. -/
def padZeros6 (s : String) : String :=
  String.mk (List.replicate (6 - s.length) '0') ++ s

/-- Models `(parseFloat(drops) / 1000000).toFixed(6)` for a whole-number drop
amount: division by `1e6` moves six decimal places, so the rendering is the
integer part, a dot, and the remainder padded to six digits (exact — a drop
is exactly `1e-6` XRP at this scale). -/
def xrpDisplayOfDrops (drops : Nat) : String :=
  toString (drops / 1000000) ++ "." ++ padZeros6 (toString (drops % 1000000))

/-! ## Balance service (`src/lib/bitquery-balance.ts`) and the
`useRealTimeBalance` hook (`src/hooks/useRealTimeBalance.ts`) -/

/-- ASCII lowercasing of one character; wallet addresses are ASCII, for
which JavaScript's `toLowerCase` is exactly this map. -/
def lowerChar (c : Char) : Char :=
  if 'A' ≤ c ∧ c ≤ 'Z' then Char.ofNat (c.toNat + 32) else c

/-- Models `address.toLowerCase()` on an ASCII address. -/
def lowerStr (s : String) : String :=
  String.mk (s.toList.map lowerChar)

structure TokenBalance where
  amount : String
  symbol : String
deriving Repr, DecidableEq

structure WalletBalance where
  address : String
  nativeAmount : String
  tokens : List TokenBalance
  lastUpdated : String
deriving Repr, DecidableEq

structure WalletData where
  address : String
  network : String
deriving Repr, DecidableEq

/-- The record returned by `getCurrentBalances`, keyed by lowercased wallet
address; a JavaScript object modelled as an association list whose keys
appear once, in first-assignment order. -/
abbrev BalanceRecord := List (String × WalletBalance)

/-- Object property assignment `rec[k] = v`: overwrite an existing key in
place, append a new one. -/
def recordInsert (rec : BalanceRecord) (k : String) (v : WalletBalance) : BalanceRecord :=
  if rec.any (fun p => p.1 = k) then
    rec.map (fun p => if p.1 = k then (k, v) else p)
  else rec ++ [(k, v)]

/-- Object property read `rec[k]`. -/
def recordLookup (rec : BalanceRecord) (k : String) : Option WalletBalance :=
  (rec.find? (fun p => p.1 = k)).map (fun p => p.2)

/-- The per-wallet fallback entry of `getCurrentBalances`'s catch branch
(lines 58-66): native amount `'0'`, no tokens, a fresh timestamp. -/
def zeroBalance (addr now : String) : WalletBalance :=
  { address := addr, nativeAmount := "0", tokens := [], lastUpdated := now }

/-- The all-zero record the catch branch builds: one `zeroBalance` entry per
requested wallet, keyed by the wallet's lowercased address. -/
def emptyBalancesFor (wallets : List WalletData) (now : String) : BalanceRecord :=
  wallets.foldl
    (fun acc w => recordInsert acc (lowerStr w.address) (zeroBalance (lowerStr w.address) now))
    []

/-- Models `BitqueryBalanceService.getCurrentBalances` (lines 35-69): the edge
function call either fails (`error` set, or the invoke itself throws) — the
catch absorbs it into the all-zero fallback — or succeeds with `data`
(`null` becomes `{}`).  `now` is the current ISO timestamp the catch branch
stamps on each fallback entry.  The function is total: no branch rejects. -/
def getCurrentBalances (outcome : Except String (Option BalanceRecord))
    (wallets : List WalletData) (now : String) : BalanceRecord :=
  match outcome with
  | Except.ok (some data) => data
  | Except.ok none => []
  | Except.error _ => emptyBalancesFor wallets now

/-- The state transition of the hook's `fetchBalances` (lines 39-53): an
empty wallet list returns early keeping the previous record; otherwise
`setBalances(balanceData)` replaces the record with whatever
`getCurrentBalances` resolved to.  (The hook's own catch would retain `prev`
only if `getCurrentBalances` rejected, which it never does.) -/
def fetchBalancesState (prev : BalanceRecord) (wallets : List WalletData)
    (outcome : Except String (Option BalanceRecord)) (now : String) : BalanceRecord :=
  if wallets.isEmpty then prev
  else getCurrentBalances outcome wallets now

/-! ## Stablecoin transfer aggregator
(`src/components/StablecoinTransfersTab.tsx`, lines 29-87) -/

/-- A transfer row as rendered by the tab; `timestamp` is the epoch
millisecond value `new Date(t.timestamp).getTime()` of the comparator. -/
structure AggTransfer where
  tokenSymbol : String
  tokenName : String
  amount : String
  senderAddress : String
  receiverAddress : String
  timestamp : Int
  network : String
deriving Repr, DecidableEq

/-- One network's task (lines 39-61): a failing or erroring fetch resolves
to `[]`; a successful one tags each transfer with the frontend network key. -/
def perNetworkContribution (networkKey : String)
    (outcome : Except String (List AggTransfer)) : List AggTransfer :=
  match outcome with
  | Except.error _ => []
  | Except.ok l => l.map (fun t => { t with network := networkKey })

/-- Descending-timestamp comparator `(a, b) => tb - ta` as the stable-sort
order relation: `a` may precede `b` when `b.timestamp ≤ a.timestamp`. -/
def laterFirst (a b : AggTransfer) : Bool :=
  decide (b.timestamp ≤ a.timestamp)

/-- Models `fetchAllNetworkTransfers` (lines 29-87) over the per-network outcomes:
every task's contribution is collected (failures isolated to `[]`), the
results merged, sorted most-recent-first, and truncated to 100. -/
def fetchAllNetworkTransfers
    (results : List (String × Except String (List AggTransfer))) : List AggTransfer :=
  let combined := (results.map (fun p => perNetworkContribution p.1 p.2)).flatten
  (combined.mergeSort laterFirst).take 100

/-- The merged contributions before sorting: everything the non-failing
networks returned, tagged, in task order. -/
def mergedContributions
    (results : List (String × Except String (List AggTransfer))) : List AggTransfer :=
  (results.map (fun p => perNetworkContribution p.1 p.2)).flatten

/-! ## Concrete sample inputs used by witnesses and counterexamples -/

/-- A concrete raw transfer payload (a 250,000 USDT whale transfer). -/
def tSample : RawTransfer :=
  ⟨"0xhash1", "0xsender", "0xreceiver", 250000, "2025-01-01T00:00:00Z", 100, "USDT"⟩

/-- A balance record with a previously fetched native balance of `2.5`. -/
def prevBalances : BalanceRecord :=
  [("0xabc", ⟨"0xabc", "2.5", [], "2025-01-01T00:00:00Z"⟩)]

/-- The tracked wallet whose balance `prevBalances` holds. -/
def walletsSample : List WalletData := [⟨"0xAbC", "ethereum"⟩]

/-! ## Theorems -/

/-- C2: every transfer processed by the poller has `usdValue` equal to the
stablecoin face amount (1:1) and `isWhale` exactly when `usdValue ≥ 100000`;
in particular `usdValue = 99999.99` is not a whale and `usdValue = 100000.00`
is (inclusive lower bound). -/
theorem whale_threshold_boundary (amount : ℚ) :
    usdValueOf amount = amount
    ∧ (isWhaleOf amount = true ↔ 100000 ≤ usdValueOf amount)
    ∧ (rowOfTransfer ⟨"h", "s", "r", amount, "t", 1, "USDC"⟩).is_whale = isWhaleOf amount
    ∧ isWhaleOf (99999.99 : ℚ) = false
    ∧ isWhaleOf (100000.00 : ℚ) = true := by
  refine ⟨rfl, by simp [isWhaleOf], rfl, ?_, ?_⟩
  · norm_num [isWhaleOf, usdValueOf]
  · norm_num [isWhaleOf, usdValueOf]

/-- C4: the explorer envelope `{status:'0', message:'No transactions found'}`
is normalized by `fetchWithRetry` to a successful empty list on the first
attempt (no retries, no error), and the analysis of the resulting empty
transaction list has 0 total transactions, wallet age 0, risk score
6 = 1 + 3 (age<30) + 2 (volume<10) + 0 (failure), level MEDIUM. -/
theorem empty_transactions_success (now : Int) :
    fetchWithRetry noTransactionsOracle 3
      = (Except.ok ⟨"1", []⟩, [])
    ∧ riskAnalysisOf now [] =
        { totalTransactions := 0, failedTransactions := 0,
          failedTransactionRatio := 0, walletAgeDays := 0,
          riskScore := 6, riskLevel := RiskLevel.MEDIUM } := by
  constructor
  · rfl
  · norm_num [riskAnalysisOf, riskCore]

/-- C9 (code bug): a request naming network `xrp` never reaches the
XRP-specific path: `analyze-wallet`'s own network map lacks `xrp`, so the
handler throws `Unsupported network: xrp` (answered HTTP 500) before the
`network === 'xrp'` test, and `wallet-history` answers 400 the same way —
even though the frontend registry offers `xrp` and `handleXRPAnalysis`
exists.  The drop conversion inside that (unreachable) path is as claimed:
50,000,000 drops display as `50.000000`. -/
theorem xrp_routing_unreachable :
    analyzeWalletRoute "rN7n7otQDd6FczFgLdSqtcsAUxDkw6fzRH" "xrp"
      = AnalyzeRoute.errorResponse 500 "Unsupported network: xrp"
    ∧ analyzeWalletRoute "rN7n7otQDd6FczFgLdSqtcsAUxDkw6fzRH" "xrp"
        ≠ AnalyzeRoute.xrpPath
    ∧ walletHistoryRoute "rN7n7otQDd6FczFgLdSqtcsAUxDkw6fzRH"
        "2024-01-01" "2024-02-01" "xrp"
      = HistoryRoute.badRequest 400 "Unsupported network: xrp"
    ∧ getNetworkConfig "xrp" ≠ none
    ∧ xrpDisplayOfDrops 50000000 = "50.000000"
    ∧ xrpDisplayOfDrops 50 = "0.000050" := by
  refine ⟨by decide, by decide, by decide, by decide, by decide, by decide⟩

set_option maxHeartbeats 2000000 in
/-- C3: for every transaction set and reference time the risk score is
1 + age factor + volume factor + failure factor capped at 10, the failed
ratio is failedTx/totalTx (0 when there are no transactions), the score lies
in [1,10], and the three risk levels partition that range at ≤3 / ≤6.
Determinism is immediate: `riskAnalysisOf` is a pure function of its
arguments. -/
theorem risk_scoring_algorithm (now : Int) (transactions : List EtherscanTx) :
    (riskAnalysisOf now transactions).riskScore =
      min (1 + ageFactor (riskAnalysisOf now transactions).walletAgeDays
            + volumeFactor (riskAnalysisOf now transactions).totalTransactions
            + failureFactor (riskAnalysisOf now transactions).failedTransactionRatio) 10
    ∧ (riskAnalysisOf now transactions).failedTransactionRatio =
        (if transactions.length = 0 then 0
         else ((transactions.filter (fun tx => tx.isError = "1")).length : ℚ)
            / (transactions.length : ℚ))
    ∧ 1 ≤ (riskAnalysisOf now transactions).riskScore
    ∧ (riskAnalysisOf now transactions).riskScore ≤ 10
    ∧ ((riskAnalysisOf now transactions).riskLevel = RiskLevel.LOW
        ↔ (riskAnalysisOf now transactions).riskScore ≤ 3)
    ∧ ((riskAnalysisOf now transactions).riskLevel = RiskLevel.MEDIUM
        ↔ 3 < (riskAnalysisOf now transactions).riskScore
          ∧ (riskAnalysisOf now transactions).riskScore ≤ 6)
    ∧ ((riskAnalysisOf now transactions).riskLevel = RiskLevel.HIGH
        ↔ 6 < (riskAnalysisOf now transactions).riskScore) := by
  have hproj : ∀ (age : Int) (total : Nat) (ratio : ℚ),
      (riskCore age total ratio).1 =
        min (1 + ageFactor age + volumeFactor total + failureFactor ratio) 10 := by
    intro age total ratio
    unfold riskCore ageFactor volumeFactor failureFactor
    dsimp only
    split_ifs <;> omega
  have hsnd : ∀ (age : Int) (total : Nat) (ratio : ℚ),
      (riskCore age total ratio).2 =
        (if (riskCore age total ratio).1 ≤ 3 then RiskLevel.LOW
         else if (riskCore age total ratio).1 ≤ 6 then RiskLevel.MEDIUM
         else RiskLevel.HIGH) := fun _ _ _ => rfl
  have hlevelOf : ∀ s : Nat,
      (((if s ≤ 3 then RiskLevel.LOW
          else if s ≤ 6 then RiskLevel.MEDIUM else RiskLevel.HIGH) = RiskLevel.LOW) ↔ s ≤ 3)
      ∧ (((if s ≤ 3 then RiskLevel.LOW
          else if s ≤ 6 then RiskLevel.MEDIUM else RiskLevel.HIGH) = RiskLevel.MEDIUM)
           ↔ 3 < s ∧ s ≤ 6)
      ∧ (((if s ≤ 3 then RiskLevel.LOW
          else if s ≤ 6 then RiskLevel.MEDIUM else RiskLevel.HIGH) = RiskLevel.HIGH)
           ↔ 6 < s) := by
    intro s
    split_ifs <;> simp_all <;> omega
  have hlevel : ∀ (age : Int) (total : Nat) (ratio : ℚ),
      ((riskCore age total ratio).2 = RiskLevel.LOW ↔ (riskCore age total ratio).1 ≤ 3)
      ∧ ((riskCore age total ratio).2 = RiskLevel.MEDIUM ↔
          3 < (riskCore age total ratio).1 ∧ (riskCore age total ratio).1 ≤ 6)
      ∧ ((riskCore age total ratio).2 = RiskLevel.HIGH ↔ 6 < (riskCore age total ratio).1) := by
    intro age total ratio
    rw [hsnd]
    exact hlevelOf _
  have hbounds : ∀ (age : Int) (total : Nat) (ratio : ℚ),
      1 ≤ (riskCore age total ratio).1 ∧ (riskCore age total ratio).1 ≤ 10 := by
    intro age total ratio
    unfold riskCore
    dsimp only
    split_ifs <;> omega
  simp only [riskAnalysisOf]
  refine ⟨hproj _ _ _, ?_, (hbounds _ _ _).1, (hbounds _ _ _).2,
    (hlevel _ _ _).1, (hlevel _ _ _).2.1, (hlevel _ _ _).2.2⟩
  rcases Nat.eq_zero_or_pos transactions.length with h0 | hpos
  · simp [h0]
  · have hne : transactions.length ≠ 0 := Nat.pos_iff_ne_zero.mp hpos
    simp [hne, hpos]

/-- C1: ingesting the same raw payload in two successive ticks persists
exactly one row, provided no row for that `(hash, sender, receiver)` event is
already stored: the pre-insert check on `(hash, fromAddress, toAddress,
amount)` skips the second ingestion, the constraint-guarded insert is the
authoritative guard, and re-running the tick is a no-op. -/
theorem ingestion_dedup_idempotence (db : List TransferRow) (t : RawTransfer)
    (hfresh : freshFor db t = true) :
    ingestTick (ingestTick db [t]) [t] = ingestTick db [t]
    ∧ countMatching (ingestTick db [t]) t = 1
    ∧ countMatching (ingestTick (ingestTick db [t]) [t]) t = 1
    ∧ ingestTransfer (ingestTransfer db t) t = ingestTransfer db t := by
  have htriple : ∀ r ∈ db,
      (decide (r.hash = t.hash) && decide (r.from_address = t.sender) &&
        decide (r.to_address = t.receiver)) = false := by
    intro r hr
    have h := (List.all_eq_true.mp hfresh) r hr
    simp only [Bool.not_eq_true'] at h
    exact h
  have hdedup : ∀ r ∈ db, matchesDedupKey t r = false := by
    intro r hr
    have h3 := htriple r hr
    unfold matchesDedupKey
    rcases h1 : decide (r.hash = t.hash) <;>
      rcases h2 : decide (r.from_address = t.sender) <;>
        rcases h4 : decide (r.to_address = t.receiver) <;>
          simp_all
  have hcons : ∀ r ∈ db, sameConstraintKey r (rowOfTransfer t) = false := by
    intro r hr
    have h3 := htriple r hr
    unfold sameConstraintKey rowOfTransfer
    rcases h1 : decide (r.hash = t.hash) <;>
      rcases h2 : decide (r.from_address = t.sender) <;>
        rcases h4 : decide (r.to_address = t.receiver) <;>
          simp_all
  have hany1 : db.any (fun r => matchesDedupKey t r) = false :=
    List.any_eq_false.mpr (by intro r hr; simp [hdedup r hr])
  have hany2 : db.any (fun r => sameConstraintKey r (rowOfTransfer t)) = false :=
    List.any_eq_false.mpr (by intro r hr; simp [hcons r hr])
  have hrowmatch : matchesDedupKey t (rowOfTransfer t) = true := by
    simp [matchesDedupKey, rowOfTransfer]
  have hfirst : ingestTransfer db t = db ++ [rowOfTransfer t] := by
    unfold ingestTransfer dbInsert
    rw [hany1, hany2]
    simp
  have hsecond : ingestTransfer (db ++ [rowOfTransfer t]) t = db ++ [rowOfTransfer t] := by
    unfold ingestTransfer
    have : (db ++ [rowOfTransfer t]).any (fun r => matchesDedupKey t r) = true := by
      rw [List.any_append]
      simp [hrowmatch]
    rw [this]
    simp
  have hcount0 : countMatching db t = 0 := by
    unfold countMatching
    rw [List.length_eq_zero, List.filter_eq_nil_iff]
    intro r hr
    simp [hdedup r hr]
  have hcount1 : countMatching (db ++ [rowOfTransfer t]) t = 1 := by
    unfold countMatching
    rw [List.filter_append, List.length_append]
    unfold countMatching at hcount0
    simp [hcount0, hrowmatch]
  have htick : ingestTick db [t] = ingestTransfer db t := rfl
  have htick2 : ∀ d, ingestTick d [t] = ingestTransfer d t := fun _ => rfl
  refine ⟨?_, ?_, ?_, ?_⟩
  · rw [htick, htick2, hfirst, hsecond]
  · rw [htick, hfirst]; exact hcount1
  · rw [htick, htick2, hfirst, hsecond]; exact hcount1
  · rw [hfirst, hsecond]

/-- Witness for C1 at the concrete payload `tSample` against an empty store. -/
theorem ingestion_dedup_idempotence_witness :
    ingestTick (ingestTick [] [tSample]) [tSample] = ingestTick [] [tSample]
    ∧ countMatching (ingestTick [] [tSample]) tSample = 1
    ∧ countMatching (ingestTick (ingestTick [] [tSample]) [tSample]) tSample = 1
    ∧ ingestTransfer (ingestTransfer [] tSample) tSample = ingestTransfer [] tSample :=
  ingestion_dedup_idempotence [] tSample (by decide)

/-- Helper: a non-failing attempt makes the loop return its normalized
value at once. -/
theorem fetchWithRetryGo_ok (oracle : Nat → AttemptOutcome) (maxRetries fuel i : Nat)
    (acc : List Nat) (h : attemptFails (oracle i) = false) :
    fetchWithRetryGo oracle maxRetries (fuel + 1) i acc
      = (Except.ok (attemptValue (oracle i)), acc.reverse) := by
  rcases ho : oracle i with _ | ⟨status, message, result⟩
  · simp [attemptFails, ho] at h
  · rw [ho] at h
    conv_lhs => unfold fetchWithRetryGo
    rw [ho]
    by_cases h1 : status = "0" ∧ message = "No transactions found"
    · simp [h1, attemptValue]
    · have hs : status = "1" := by
        unfold attemptFails at h
        simp [h1] at h
        exact h
      simp [h1, hs, attemptValue]

/-- Helper: a failing attempt before the last one sleeps its back-off delay
and moves to the next attempt. -/
theorem fetchWithRetryGo_retry (oracle : Nat → AttemptOutcome) (maxRetries fuel i : Nat)
    (acc : List Nat) (h : attemptFails (oracle i) = true) (hi : i < maxRetries - 1) :
    fetchWithRetryGo oracle maxRetries (fuel + 1) i acc
      = fetchWithRetryGo oracle maxRetries fuel (i + 1)
          (attemptDelay i (oracle i) :: acc) := by
  have hne : ¬ i = maxRetries - 1 := by omega
  rcases ho : oracle i with _ | ⟨status, message, result⟩
  · conv_lhs => unfold fetchWithRetryGo
    rw [ho]
    simp [ho, hne, attemptDelay, attemptRateLimited]
  · rw [ho] at h
    conv_lhs => unfold fetchWithRetryGo
    rw [ho]
    by_cases h1 : status = "0" ∧ message = "No transactions found"
    · unfold attemptFails at h
      simp [h1] at h
    · have hs : status ≠ "1" := by
        unfold attemptFails at h
        simp [h1] at h
        exact h
      by_cases hrl : hasRateLimitSignal message = true
      · simp [ho, h1, hs, hrl, hi, attemptDelay, attemptRateLimited]
      · simp [ho, h1, hs, hrl, hne, attemptDelay, attemptRateLimited]

/-- Helper: a failing final attempt propagates an error. -/
theorem fetchWithRetryGo_lastFail (oracle : Nat → AttemptOutcome) (maxRetries fuel i : Nat)
    (acc : List Nat) (h : attemptFails (oracle i) = true) (hi : i = maxRetries - 1) :
    ∃ msg, fetchWithRetryGo oracle maxRetries (fuel + 1) i acc
      = (Except.error msg, acc.reverse) := by
  have hnl : ¬ i < maxRetries - 1 := by omega
  rcases ho : oracle i with _ | ⟨status, message, result⟩
  · refine ⟨"HTTP error", ?_⟩
    conv_lhs => unfold fetchWithRetryGo
    rw [ho]
    simp [hi]
  · rw [ho] at h
    by_cases h1 : status = "0" ∧ message = "No transactions found"
    · unfold attemptFails at h
      simp [h1] at h
    · have hs : status ≠ "1" := by
        unfold attemptFails at h
        simp [h1] at h
        exact h
      refine ⟨"API error", ?_⟩
      conv_lhs => unfold fetchWithRetryGo
      rw [ho]
      simp [h1, hs, hnl, hi]

/-- C7 (counterexample): when every attempt reports an explorer rate-limit
signal in the body, `fetchWithRetry` sleeps 2000 ms and then 4000 ms — a
2-second base, not the claimed 1-second base doubling (1000 ms, 2000 ms). -/
theorem retry_policy_counterexample :
    attemptRateLimited (rateLimitedOracle 0) = true
    ∧ (fetchWithRetry rateLimitedOracle 3).2 = [2000, 4000]
    ∧ (fetchWithRetry rateLimitedOracle 3).2 ≠ [1000, 2000]
    ∧ (fetchWithRetry rateLimitedOracle 3).1 = Except.error "API error" := by
  refine ⟨by decide, by decide, by decide, by rfl⟩

/-- C7 (amended): `fetchWithRetry` makes up to 3 attempts and propagates an
error only once the final attempt fails; between attempts it sleeps
`1000*(i+1)` ms after an HTTP-level or non-rate-limit failure of attempt `i`
(1 s then 2 s — doubling from a 1-second base) but `2000*(i+1)` ms after a
rate-limit signal embedded in the response body (2 s then 4 s — a 2-second
base), and a success at any attempt returns that attempt's normalized
response with no further delay. -/
theorem retry_policy_amended (o0 o1 o2 : AttemptOutcome) :
    (attemptFails o0 = false →
      fetchWithRetry (oracle3 o0 o1 o2) 3 = (Except.ok (attemptValue o0), []))
    ∧ (attemptFails o0 = true → attemptFails o1 = false →
      fetchWithRetry (oracle3 o0 o1 o2) 3
        = (Except.ok (attemptValue o1), [attemptDelay 0 o0]))
    ∧ (attemptFails o0 = true → attemptFails o1 = true → attemptFails o2 = false →
      fetchWithRetry (oracle3 o0 o1 o2) 3
        = (Except.ok (attemptValue o2), [attemptDelay 0 o0, attemptDelay 1 o1]))
    ∧ (attemptFails o0 = true → attemptFails o1 = true → attemptFails o2 = true →
      ∃ msg, fetchWithRetry (oracle3 o0 o1 o2) 3
        = (Except.error msg, [attemptDelay 0 o0, attemptDelay 1 o1]))
    ∧ attemptDelay 0 AttemptOutcome.httpFail = 1000
    ∧ attemptDelay 1 AttemptOutcome.httpFail = 2000 := by
  have e0 : oracle3 o0 o1 o2 0 = o0 := rfl
  have e1 : oracle3 o0 o1 o2 1 = o1 := rfl
  have e2 : oracle3 o0 o1 o2 2 = o2 := rfl
  refine ⟨?_, ?_, ?_, ?_, by decide, by decide⟩
  · intro h0
    unfold fetchWithRetry
    rw [show (3 : Nat) = 2 + 1 from rfl, fetchWithRetryGo_ok _ _ _ _ _ (by rw [e0]; exact h0)]
    rw [e0]
    rfl
  · intro h0 h1
    unfold fetchWithRetry
    rw [show (3 : Nat) = 2 + 1 from rfl,
      fetchWithRetryGo_retry _ _ _ _ _ (by rw [e0]; exact h0) (by omega)]
    rw [show (2 : Nat) = 1 + 1 from rfl, fetchWithRetryGo_ok _ _ _ _ _ (by rw [e1]; exact h1)]
    rw [e0, e1]
    rfl
  · intro h0 h1 h2
    unfold fetchWithRetry
    rw [show (3 : Nat) = 2 + 1 from rfl,
      fetchWithRetryGo_retry _ _ _ _ _ (by rw [e0]; exact h0) (by omega)]
    rw [show (2 : Nat) = 1 + 1 from rfl,
      fetchWithRetryGo_retry _ _ _ _ _ (by rw [e1]; exact h1) (by omega)]
    rw [show (1 : Nat) = 0 + 1 from rfl, fetchWithRetryGo_ok _ _ _ _ _ (by rw [e2]; exact h2)]
    rw [e0, e1, e2]
    rfl
  · intro h0 h1 h2
    unfold fetchWithRetry
    rw [show (3 : Nat) = 2 + 1 from rfl,
      fetchWithRetryGo_retry _ _ _ _ _ (by rw [e0]; exact h0) (by omega)]
    rw [show (2 : Nat) = 1 + 1 from rfl,
      fetchWithRetryGo_retry _ _ _ _ _ (by rw [e1]; exact h1) (by omega)]
    obtain ⟨msg, hmsg⟩ :=
      fetchWithRetryGo_lastFail (oracle3 o0 o1 o2) 3 0 2
        [attemptDelay 1 (oracle3 o0 o1 o2 1), attemptDelay 0 (oracle3 o0 o1 o2 0)]
        (by rw [e2]; exact h2) (by omega)
    refine ⟨msg, ?_⟩
    rw [show (1 : Nat) = 0 + 1 from rfl, hmsg, e0, e1]
    rfl

/-- C8 (counterexample): at the `analyze-wallet` gateway an unsupported
network does not yield HTTP 400 — the `Unsupported network` error is thrown
inside the handler's `try` and funnelled through the generic `catch`, which
answers HTTP 500. -/
theorem unsupported_network_counterexample :
    analyzeWalletRoute "0x1234" "dogecoin"
      = AnalyzeRoute.errorResponse 500 "Unsupported network: dogecoin"
    ∧ (∀ msg, analyzeWalletRoute "0x1234" "dogecoin" ≠ AnalyzeRoute.errorResponse 400 msg) := by
  refine ⟨by decide, ?_⟩
  intro msg h
  rw [show analyzeWalletRoute "0x1234" "dogecoin"
      = AnalyzeRoute.errorResponse 500 "Unsupported network: dogecoin" from by decide] at h
  injection h with h1 h2
  exact absurd h1 (by decide)

/-- C8 (amended): the registry lookup answers unknown network ids with
`none` and never throws; the `wallet-history` gateway answers an unsupported
network with HTTP 400, but the `analyze-wallet` gateway answers HTTP 500
(its unsupported-network error goes through the generic catch); the
stablecoin contract list falls back to the `eth` list for unknown
networks. -/
theorem unsupported_network_amended (networkId : String) :
    (getNetworkConfig networkId = none ↔ networkId ∉ frontendNetworks.map Prod.fst)
    ∧ (networkId ∉ analyzeWalletNetworks →
        analyzeWalletRoute "0x1234" networkId
          = AnalyzeRoute.errorResponse 500 ("Unsupported network: " ++ networkId))
    ∧ (networkId ∉ walletHistoryNetworks →
        walletHistoryRoute "0x1234" "2024-01-01" "2024-02-01" networkId
          = HistoryRoute.badRequest 400 ("Unsupported network: " ++ networkId))
    ∧ ((NETWORK_STABLECOINS.find? (fun p => p.1 = networkId)).isNone →
        stablecoinContractsFor networkId = stablecoinContractsFor "eth") := by
  refine ⟨?_, ?_, ?_, ?_⟩
  · unfold getNetworkConfig
    rw [Option.map_eq_none', List.find?_eq_none]
    simp
    constructor
    · intro h x hx
      exact h networkId x hx rfl
    · intro h a b hab ha
      subst ha
      exact h b hab
  · intro h
    simp [analyzeWalletRoute, h]
  · intro h
    simp [walletHistoryRoute, h]
  · intro h
    unfold stablecoinContractsFor
    rw [Option.isNone_iff_eq_none] at h
    rw [h]
    rfl

/-- C5 (counterexample): a wallet with previously fetched native balance
`2.5` is reset to `0` by a failing fetch — `getCurrentBalances` absorbs the
failure into the all-zero fallback and the hook replaces its state with that
record, so the exposed balance does not stay `2.5`. -/
theorem balance_degradation_counterexample :
    recordLookup prevBalances "0xabc"
      = some ⟨"0xabc", "2.5", [], "2025-01-01T00:00:00Z"⟩
    ∧ (recordLookup (fetchBalancesState prevBalances walletsSample
          (Except.error "Edge Function failed") "2025-01-01T00:00:30Z") "0xabc").map
        WalletBalance.nativeAmount = some "0"
    ∧ (recordLookup (fetchBalancesState prevBalances walletsSample
          (Except.error "Edge Function failed") "2025-01-01T00:00:30Z") "0xabc").map
        WalletBalance.nativeAmount ≠ some "2.5" := by
  refine ⟨by decide, by decide, by decide⟩

/-- C5 (amended): on a failed fetch for a non-empty wallet list, the hook's
exposed record becomes the all-zero-per-wallet fallback regardless of any
previously fetched balances; last-known-good balances are kept only when the
wallet list is empty (early return) — never because of prior data. -/
theorem balance_degradation_amended (prev : BalanceRecord) (w : WalletData)
    (ws : List WalletData) (e now : String) :
    fetchBalancesState prev (w :: ws) (Except.error e) now
      = emptyBalancesFor (w :: ws) now
    ∧ fetchBalancesState prev [] (Except.error e) now = prev := by
  constructor
  · simp [fetchBalancesState, getCurrentBalances]
  · simp [fetchBalancesState]

/-- Helper: `recordInsert` keeps the key list either unchanged (overwrite)
or extends it with the new key (append). -/
theorem recordInsert_keys (rec : BalanceRecord) (k : String) (v : WalletBalance) :
    (recordInsert rec k v).map Prod.fst =
      (if rec.any (fun p => p.1 = k) then rec.map Prod.fst
       else rec.map Prod.fst ++ [k]) := by
  unfold recordInsert
  split_ifs with h
  · rw [List.map_map]
    apply List.map_congr_left
    intro p hp
    by_cases hk : p.1 = k <;> simp [hk]
  · simp

/-- Helper: every value in the record built by inserting zero entries is the
zero snapshot of its own key. -/
theorem recordInsert_values (rec : BalanceRecord) (k : String) (v : WalletBalance)
    (q : String × WalletBalance) (hq : q ∈ recordInsert rec k v) :
    q ∈ rec ∨ q = (k, v) := by
  unfold recordInsert at hq
  split_ifs at hq with h
  · obtain ⟨p, hp, hpq⟩ := List.mem_map.mp hq
    by_cases hk : p.1 = k
    · right
      rw [← hpq]
      simp [hk]
    · left
      rw [← hpq]
      simpa [hk] using hp
  · rcases List.mem_append.mp hq with h1 | h1
    · exact Or.inl h1
    · exact Or.inr (by simpa using h1)

/-- Helper: invariant of the fold building the all-zero record — values are
zero snapshots of their keys, keys are distinct, and the key set is the
accumulator's keys joined with the processed wallets' lowercased
addresses. -/
theorem emptyBalancesFor_invariant (now : String) (ws : List WalletData)
    (acc : BalanceRecord)
    (hval : ∀ q ∈ acc, q.2 = zeroBalance q.1 now)
    (hnodup : (acc.map Prod.fst).Nodup) :
    (∀ q ∈ ws.foldl (fun a w =>
        recordInsert a (lowerStr w.address) (zeroBalance (lowerStr w.address) now)) acc,
      q.2 = zeroBalance q.1 now)
    ∧ ((ws.foldl (fun a w =>
        recordInsert a (lowerStr w.address) (zeroBalance (lowerStr w.address) now)) acc).map
          Prod.fst).Nodup
    ∧ (∀ k, k ∈ (ws.foldl (fun a w =>
        recordInsert a (lowerStr w.address) (zeroBalance (lowerStr w.address) now)) acc).map
          Prod.fst
        ↔ k ∈ acc.map Prod.fst ∨ k ∈ ws.map (fun w => lowerStr w.address)) := by
  induction ws generalizing acc with
  | nil => exact ⟨hval, hnodup, fun k => by simp⟩
  | cons w rest ih =>
    simp only [List.foldl_cons]
    have hval' : ∀ q ∈ recordInsert acc (lowerStr w.address)
        (zeroBalance (lowerStr w.address) now), q.2 = zeroBalance q.1 now := by
      intro q hq
      rcases recordInsert_values acc _ _ q hq with h1 | h1
      · exact hval q h1
      · rw [h1]
    have hkeys := recordInsert_keys acc (lowerStr w.address)
      (zeroBalance (lowerStr w.address) now)
    have hnodup' : ((recordInsert acc (lowerStr w.address)
        (zeroBalance (lowerStr w.address) now)).map Prod.fst).Nodup := by
      rw [hkeys]
      split_ifs with h
      · exact hnodup
      · have hfalse : acc.any (fun p => p.1 = lowerStr w.address) = false :=
          Bool.eq_false_iff.mpr h
        have hnot : lowerStr w.address ∉ acc.map Prod.fst := by
          intro hmem
          obtain ⟨p, hp, hpk⟩ := List.mem_map.mp hmem
          have hp2 := List.any_eq_false.mp hfalse p hp
          simp [hpk] at hp2
        rw [List.nodup_append]
        refine ⟨hnodup, List.nodup_singleton _, ?_⟩
        intro a ha hb
        have hab : a = lowerStr w.address := by simpa using hb
        subst hab
        exact hnot ha
    obtain ⟨iv, ind, imem⟩ := ih _ hval' hnodup'
    refine ⟨iv, ind, ?_⟩
    intro k
    rw [imem k, hkeys]
    split_ifs with h
    · have hlw : lowerStr w.address ∈ acc.map Prod.fst := by
        obtain ⟨p, hp, hpk⟩ := List.any_eq_true.mp h
        exact List.mem_map.mpr ⟨p, hp, by simpa using hpk⟩
      simp only [List.map_cons, List.mem_cons]
      constructor
      · rintro (h1 | h1)
        · exact Or.inl h1
        · exact Or.inr (Or.inr h1)
      · rintro (h1 | h2 | h3)
        · exact Or.inl h1
        · exact Or.inl (by rwa [h2])
        · exact Or.inr h3
    · simp only [List.map_cons, List.mem_cons, List.mem_append, List.mem_singleton]
      tauto

/-- Helper: looking up a present key in a record of zero snapshots yields
the zero snapshot of that key. -/
theorem recordLookup_zero (R : BalanceRecord) (k now : String)
    (hval : ∀ q ∈ R, q.2 = zeroBalance q.1 now)
    (hk : k ∈ R.map Prod.fst) :
    recordLookup R k = some (zeroBalance k now) := by
  unfold recordLookup
  cases hfind : R.find? (fun p => p.1 = k) with
  | none =>
    obtain ⟨p, hp, hpk⟩ := List.mem_map.mp hk
    have := List.find?_eq_none.mp hfind p hp
    simp [hpk] at this
  | some pr =>
    have h1 : pr.1 = k := by simpa using List.find?_some hfind
    have h2 : pr ∈ R := List.mem_of_find?_eq_some hfind
    simp [hval pr h2, h1]

/-- C10: `getCurrentBalances` never rejects — when the edge-function call
fails or throws, it resolves to the all-zero fallback: every requested
wallet's lowercased address maps to the zero snapshot (native amount `0`,
no tokens, fresh timestamp), the record's keys are distinct, they are
exactly the lowercased requested addresses, and every entry is the zero
snapshot of its own key. -/
theorem balance_query_totality (wallets : List WalletData) (now e : String) :
    (∀ w ∈ wallets,
      recordLookup (getCurrentBalances (Except.error e) wallets now) (lowerStr w.address)
        = some (zeroBalance (lowerStr w.address) now))
    ∧ ((getCurrentBalances (Except.error e) wallets now).map Prod.fst).Nodup
    ∧ (∀ k, k ∈ (getCurrentBalances (Except.error e) wallets now).map Prod.fst
        ↔ k ∈ wallets.map (fun w => lowerStr w.address))
    ∧ (∀ q ∈ getCurrentBalances (Except.error e) wallets now,
        q.2 = zeroBalance q.1 now) := by
  have hGC : getCurrentBalances (Except.error e) wallets now
      = emptyBalancesFor wallets now := rfl
  obtain ⟨hv, hn, hm⟩ := emptyBalancesFor_invariant now wallets []
    (by intro q hq; simp at hq) (by simp)
  rw [hGC]
  unfold emptyBalancesFor
  refine ⟨?_, hn, ?_, hv⟩
  · intro w hw
    apply recordLookup_zero _ _ now hv
    rw [hm]
    exact Or.inr (List.mem_map.mpr ⟨w, hw, rfl⟩)
  · intro k
    rw [hm k]
    simp

/-- C6: the aggregator is total over per-network outcomes (it cannot raise),
a failing network contributes the empty list, and the value it returns is
the non-failing networks' transfers merged, sorted descending by timestamp,
and truncated to the 100 most recent: its length is the merged count capped
at 100, it is pairwise descending, every element is one of the merged
transfers tagged with its network key, and when at most 100 transfers were
merged it is a permutation of all of them. -/
theorem aggregator_isolation_and_shape
    (results : List (String × Except String (List AggTransfer))) :
    (fetchAllNetworkTransfers results).length = min (mergedContributions results).length 100
    ∧ List.Pairwise (fun a b => b.timestamp ≤ a.timestamp) (fetchAllNetworkTransfers results)
    ∧ (∀ t ∈ fetchAllNetworkTransfers results, t ∈ mergedContributions results)
    ∧ (∀ p ∈ results, ∀ err, p.2 = Except.error err → perNetworkContribution p.1 p.2 = [])
    ∧ ((mergedContributions results).length ≤ 100 →
        (fetchAllNetworkTransfers results).Perm (mergedContributions results)) := by
  have htrans : ∀ a b c : AggTransfer,
      laterFirst a b = true → laterFirst b c = true → laterFirst a c = true := by
    intro a b c h1 h2
    simp only [laterFirst, decide_eq_true_eq] at h1 h2 ⊢
    omega
  have htotal : ∀ a b : AggTransfer, laterFirst a b || laterFirst b a := by
    intro a b
    simp only [laterFirst]
    rcases Int.le_total a.timestamp b.timestamp with h | h <;> simp [h]
  have hperm := List.mergeSort_perm (mergedContributions results) laterFirst
  have hsorted := List.sorted_mergeSort htrans htotal (mergedContributions results)
  have hdef : fetchAllNetworkTransfers results
      = ((mergedContributions results).mergeSort laterFirst).take 100 := rfl
  refine ⟨?_, ?_, ?_, ?_, ?_⟩
  · rw [hdef, List.length_take, List.length_mergeSort, Nat.min_comm]
  · rw [hdef]
    have hpw := List.Pairwise.sublist (List.take_sublist 100 _) hsorted
    exact hpw.imp (by intro a b h; simpa [laterFirst] using h)
  · intro t ht
    rw [hdef] at ht
    exact hperm.mem_iff.mp ((List.take_sublist 100 _).mem ht)
  · intro p hp err herr
    simp [perNetworkContribution, herr]
  · intro hle
    rw [hdef, List.take_of_length_le (by rw [List.length_mergeSort]; exact hle)]
    exact hperm
